import Mathlib

set_option maxHeartbeats 1000000

/-!
Verification development for `combine_chats.py`, a WhatsApp chat-export
parser/merger.  The Python source is shallowly embedded below:

* timestamps (`datetime`) are modelled as seconds since a fixed epoch (`Int`);
  `timedelta(days=1)` is `86400` seconds;
* Python strings are Lean `String`s; the line parser works on `List Char`
  so that Python's code-point indexing (`line[i:j]`, `str.index`) can be
  mirrored exactly with `List.take` / `List.drop`;
* fallible code (uncaught exceptions) is modelled with `Option`:
  `none` is an escaped exception;
* `datetime.strptime` for the two fixed formats used by the source is
  modelled by a character-level parser that mirrors CPython `_strptime`'s
  per-field regexes (`%m`/`%I` accept only 1-12; `%d` accepts zero- or
  space-padded 1-31; `%y` takes exactly two digits; `%M` 0-59; `%S` 0-61;
  format whitespace matches `\s+`; AM/PM is case-insensitive; the whole
  string must match) plus the `datetime` constructor's calendar validation
  and the POSIX two-digit-year pivot 69.
-/

namespace WhatsApp

inductive MediaType where
  | PHOTO
  | VIDEO
  | AUDIO
  | OTHER
deriving DecidableEq, Repr, BEq

inductive Version where
  | OLD
  | NEW
deriving DecidableEq, Repr, BEq

structure Media where
  media_type : MediaType
  path : Option String
  caption : Option String
deriving DecidableEq, Repr, BEq

/-- `Media.__eq__` from the source: kinds must agree unless either is `OTHER`;
captions must agree unless either is absent; `path` is never inspected. -/
def Media.eq (a b : Media) : Bool :=
  if a.media_type ≠ MediaType.OTHER ∧ b.media_type ≠ MediaType.OTHER ∧
      a.media_type ≠ b.media_type then
    false
  else if a.caption ≠ none ∧ b.caption ≠ none ∧ a.caption ≠ b.caption then
    false
  else
    true

/-- The `Message` hierarchy (`TextMessage` / `MediaMessage` / `SystemMessage`)
as a tagged union.  Timestamps are seconds since the epoch. -/
inductive Message where
  | text (timestamp : Int) (sender : Option String) (content : String)
  | media (timestamp : Int) (sender : Option String) (content : Media)
  | system (timestamp : Int) (sender : Option String) (content : String)
deriving DecidableEq, Repr, BEq

def Message.timestamp : Message → Int
  | .text t _ _ => t
  | .media t _ _ => t
  | .system t _ _ => t

def Message.sender : Message → Option String
  | .text _ s _ => s
  | .media _ s _ => s
  | .system _ s _ => s

/-- One day, in seconds (`timedelta(days=1)`). -/
def oneDay : Int := 86400

/-- The three `__eq__` overrides: same concrete class, timestamps within one
day of each other, equal senders, and variant-specific content equality. -/
def Message.eq : Message → Message → Bool
  | .text t1 s1 c1, .text t2 s2 c2 =>
    decide ((t1 - t2).natAbs ≤ 86400) && decide (s1 = s2) && decide (c1 = c2)
  | .media t1 s1 c1, .media t2 s2 c2 =>
    decide ((t1 - t2).natAbs ≤ 86400) && decide (s1 = s2) && Media.eq c1 c2
  | .system t1 s1 c1, .system t2 s2 c2 =>
    decide ((t1 - t2).natAbs ≤ 86400) && decide (s1 = s2) && decide (c1 = c2)
  | _, _ => false

/-- Spec-side notion: two messages are of the same variant. -/
def sameVariant : Message → Message → Bool
  | .text _ _ _, .text _ _ _ => true
  | .media _ _ _, .media _ _ _ => true
  | .system _ _ _, .system _ _ _ => true
  | _, _ => false

/-- Spec-side notion: variant-specific content equality (string equality for
Text/System, `Media.eq` for Media; `false` across variants). -/
def contentEq : Message → Message → Bool
  | .text _ _ c1, .text _ _ c2 => decide (c1 = c2)
  | .media _ _ c1, .media _ _ c2 => Media.eq c1 c2
  | .system _ _ c1, .system _ _ c2 => decide (c1 = c2)
  | _, _ => false

/-- Default used to make list indexing total; every access in the aligner is
guarded by the same bounds checks the Python loop performs. -/
def dfltMsg : Message := .text 0 none ""

/-- `chat[i]` (all aligner accesses are in bounds thanks to the loop guards). -/
def nthMsg (l : List Message) (i : Nat) : Message := l.getD i dfltMsg

/-- The merge of two equivalent messages performed by `combine_chats`: keep
`m1` wholesale unless both are media, in which case prefer a non-`OTHER`
kind, a present caption and a present path, taking `m1`'s field first. -/
def merge_messages (m1 m2 : Message) : Message :=
  match m1, m2 with
  | .media t s c1, .media _ _ c2 =>
    .media t s
      ⟨(if c1.media_type ≠ MediaType.OTHER then c1.media_type else c2.media_type),
        (match c1.path with
          | some p => some p
          | none => c2.path),
        (match c1.caption with
          | some c => some c
          | none => c2.caption)⟩
  | _, _ => m1

/-- Permutations of `avail` of length `k`, in the lexicographic order produced
by `itertools.permutations`. -/
def permsAux : Nat → List Nat → List (List Nat)
  | 0, _ => [[]]
  | k + 1, avail =>
    avail.flatMap (fun x => (permsAux k (avail.erase x)).map (fun p => x :: p))

/-- `itertools.permutations(range(w), w)` in enumeration order. -/
def permsOf (w : Nat) : List (List Nat) := permsAux w (List.range w)

/-- Does permutation `combo` align `chat1`'s window at `i` with `chat2`'s
window at `j` (`all(chat1[i+c] == chat2[j+k] ...)`)? -/
def comboMatches (c1 c2 : List Message) (i j w : Nat) (combo : List Nat) : Bool :=
  (List.range w).all fun k =>
    Message.eq (nthMsg c1 (i + combo.getD k 0)) (nthMsg c2 (j + k))

/-- The merged messages appended for an accepted window permutation. -/
def windowMerged (c1 c2 : List Message) (i j w : Nat) (combo : List Nat) :
    List Message :=
  (List.range w).map fun k =>
    merge_messages (nthMsg c1 (i + combo.getD k 0)) (nthMsg c2 (j + k))

/-- The `for num_to_check in range(2, 6)` search: window sizes are tried in
increasing order and the search `break`s as soon as a window no longer fits
in both remaining suffixes. -/
def windowSearchAux (c1 c2 : List Message) (i j : Nat) :
    List Nat → Option (Nat × List Nat)
  | [] => none
  | w :: ws =>
    if i + w > c1.length ∨ j + w > c2.length then none
    else
      match (permsOf w).find? (comboMatches c1 c2 i j w) with
      | some combo => some (w, combo)
      | none => windowSearchAux c1 c2 i j ws

def windowSearch (c1 c2 : List Message) (i j : Nat) : Option (Nat × List Nat) :=
  windowSearchAux c1 c2 i j [2, 3, 4, 5]

/-- The inner drain loops of the skew heuristic: starting at index `k`,
append messages of `c` until one satisfies `stop` (the equality test against
the other side's current message) or `c` is exhausted; returns the appended
messages and the final index. -/
def drainFrom (c : List Message) (k : Nat) (stop : Message → Bool) :
    List Message × Nat :=
  if h : k < c.length then
    if stop (nthMsg c k) then ([], k)
    else
      let r := drainFrom c (k + 1) stop
      (nthMsg c k :: r.1, r.2)
  else ([], k)
termination_by c.length - k

/-- Cursor/output state of the `combine_chats` main loop. -/
structure AlignState where
  i : Nat
  j : Nat
  out : List Message
deriving DecidableEq, Repr

/-- One iteration of the `while i < len(chat1) and j < len(chat2)` loop of
`combine_chats` (meaningful when both cursors are in bounds).  Note that when
no rule applies the state is returned unchanged: the reference loop body
falls through without advancing either cursor. -/
def combineStep (c1 c2 : List Message) (s : AlignState) : AlignState :=
  let m1 := nthMsg c1 s.i
  let m2 := nthMsg c2 s.j
  if Message.eq m1 m2 then
    ⟨s.i + 1, s.j + 1, s.out ++ [merge_messages m1 m2]⟩
  else
    match windowSearch c1 c2 s.i s.j with
    | some (w, combo) =>
      ⟨s.i + w, s.j + w, s.out ++ windowMerged c1 c2 s.i s.j w combo⟩
    | none =>
      if 0 < s.i ∧ 0 < s.j then
        let diff1 := (nthMsg c1 s.i).timestamp - (nthMsg c1 (s.i - 1)).timestamp
        let diff2 := (nthMsg c2 s.j).timestamp - (nthMsg c2 (s.j - 1)).timestamp
        if diff1 > diff2 ∧ diff1 - diff2 > oneDay then
          let r := drainFrom c2 s.j (fun x => Message.eq x m1)
          ⟨s.i, r.2, s.out ++ r.1⟩
        else if diff2 > diff1 ∧ diff2 - diff1 > oneDay then
          let r := drainFrom c1 s.i (fun x => Message.eq m2 x)
          ⟨r.2, s.j, s.out ++ r.1⟩
        else s
      else s

/-- The main loop, with explicit fuel (one unit per iteration); `none` models
an execution that does not finish within `fuel` iterations.  On exit both
remaining tails are appended. -/
def combineLoop (c1 c2 : List Message) : Nat → AlignState → Option (List Message)
  | 0, _ => none
  | fuel + 1, s =>
    if s.i < c1.length ∧ s.j < c2.length then
      combineLoop c1 c2 fuel (combineStep c1 c2 s)
    else
      some (s.out ++ c1.drop s.i ++ c2.drop s.j)

/-- `combine_chats(chat1, chat2)` with explicit fuel. -/
def combine_chats (c1 c2 : List Message) (fuel : Nat) : Option (List Message) :=
  combineLoop c1 c2 fuel ⟨0, 0, []⟩

/-- Association-list lookup (models `Counter.__getitem__` restricted to keys
actually stored). -/
def alookup : List (String × Nat) → String → Option Nat
  | [], _ => none
  | (k, v) :: rest, s => if k = s then some v else alookup rest s

/-- `Counter[k] += 1`: increment in place, inserting the key (with value 1)
at the end on first use, as Python's insertion-ordered dict does. -/
def bump : List (String × Nat) → String → List (String × Nat)
  | [], s => [(s, 1)]
  | (k, v) :: rest, s =>
    if k = s then (k, v + 1) :: rest else (k, v) :: bump rest s

/-- The scan of `check_for_duplicates` specialised to one stream of strings
(either the Text bodies or the Media captions): track strings longer than 15
characters in a seen-set, bump the counter on repeats, and finally add one to
every counted key. -/
def stringDupScan : List String → List String → List (String × Nat) →
    List (String × Nat)
  | [], _, d => d.map (fun p => (p.1, p.2 + 1))
  | c :: rest, seen, d =>
    if c.length > 15 then
      stringDupScan rest (if c ∈ seen then seen else c :: seen)
        (if c ∈ seen then bump d c else d)
    else stringDupScan rest seen d

/-- The per-message pass of `check_for_duplicates`, carrying both seen-sets
and both counters. -/
def dupScan : List Message → List String → List String →
    List (String × Nat) → List (String × Nat) →
    List (String × Nat) × List (String × Nat)
  | [], _, _, dt, dm =>
    (dt.map (fun p => (p.1, p.2 + 1)), dm.map (fun p => (p.1, p.2 + 1)))
  | m :: rest, st, sm, dt, dm =>
    match m with
    | .text _ _ c =>
      if c.length > 15 then
        dupScan rest (if c ∈ st then st else c :: st) sm
          (if c ∈ st then bump dt c else dt) dm
      else dupScan rest st sm dt dm
    | .media _ _ md =>
      match md.caption with
      | some c =>
        if c.length > 15 then
          dupScan rest st (if c ∈ sm then sm else c :: sm) dt
            (if c ∈ sm then bump dm c else dm)
        else dupScan rest st sm dt dm
      | none => dupScan rest st sm dt dm
    | .system _ _ _ => dupScan rest st sm dt dm

/-- `check_for_duplicates(chat)`: the pair (duplicated text bodies,
duplicated media captions), each as an insertion-ordered counter. -/
def check_for_duplicates (msgs : List Message) :
    List (String × Nat) × List (String × Nat) :=
  dupScan msgs [] [] [] []

/-- The stream of Text bodies of a chat, in order. -/
def textBodies (msgs : List Message) : List String :=
  msgs.filterMap fun m =>
    match m with
    | .text _ _ c => some c
    | _ => none

/-- The stream of present Media captions of a chat, in order. -/
def mediaCaptions (msgs : List Message) : List String :=
  msgs.filterMap fun m =>
    match m with
    | .media _ _ md => md.caption
    | _ => none

/-- Total occurrences of `s` among the Text bodies. -/
def countTextOcc (s : String) (msgs : List Message) : Nat :=
  (textBodies msgs).count s

/-- Total occurrences of `s` among the present Media captions. -/
def countCaptionOcc (s : String) (msgs : List Message) : Nat :=
  (mediaCaptions msgs).count s

def isLeap (y : Nat) : Bool := y % 4 == 0 && (y % 100 != 0 || y % 400 == 0)

def daysInMonth (y m : Nat) : Nat :=
  if m = 2 then (if isLeap y then 29 else 28)
  else if m = 4 ∨ m = 6 ∨ m = 9 ∨ m = 11 then 30
  else 31

/-- Days since 0000-03-01 of the civil date (valid for years ≥ 1). -/
def daysFromCivil (y m d : Nat) : Nat :=
  let y' := if m ≤ 2 then y - 1 else y
  let era := y' / 400
  let yoe := y' % 400
  let mp := (m + 9) % 12
  let doy := (153 * mp + 2) / 5 + (d - 1)
  let doe := yoe * 365 + yoe / 4 - yoe / 100 + doy
  era * 146097 + doe

/-- Civil date from a day number (inverse of `daysFromCivil`). -/
def civilFromDays (z : Nat) : Nat × Nat × Nat :=
  let era := z / 146097
  let doe := z % 146097
  let yoe := (doe - doe / 1460 + doe / 36524 - doe / 146096) / 365
  let y' := yoe + era * 400
  let doy := doe - (365 * yoe + yoe / 4 - yoe / 100)
  let mp := (5 * doy + 2) / 153
  let d := doy - (153 * mp + 2) / 5 + 1
  let m := if mp < 10 then mp + 3 else mp - 9
  (if m ≤ 2 then y' + 1 else y', m, d)

def toEpoch (y mo d hh mi ss : Nat) : Int :=
  ((daysFromCivil y mo d) * 86400 + hh * 3600 + mi * 60 + ss : Nat)

def expectChar (ch : Char) : List Char → Option (List Char)
  | c :: rest => if c = ch then some rest else none
  | [] => none

/-- The `%m` and `%I` fields of CPython's `_strptime`: the regex
`1[0-2]|0[1-9]|[1-9]` — only the values 1-12, as one or two digits.  When the
two-digit alternative `1[0-2]` fails on `1x`, the engine falls back to
`[1-9]` consuming only the `1` (committed choice is equivalent here: every
field is followed by a non-digit, so re-matching one digit shorter never
helps after a two-digit alternative succeeded). -/
def readMonthHour : List Char → Option (Nat × List Char)
  | '1' :: c2 :: rest =>
    if '0' ≤ c2 ∧ c2 ≤ '2' then some (10 + (c2.toNat - 48), rest)
    else some (1, c2 :: rest)
  | '0' :: c2 :: rest =>
    if '1' ≤ c2 ∧ c2 ≤ '9' then some (c2.toNat - 48, rest) else none
  | c :: rest =>
    if '1' ≤ c ∧ c ≤ '9' then some (c.toNat - 48, rest) else none
  | [] => none

/-- The `%d` field: the regex `3[01]|[12]\d|0[1-9]|[1-9]| [1-9]` — 1-31 as
one or two digits, zero-padded, or space-padded. -/
def readDay : List Char → Option (Nat × List Char)
  | '3' :: c2 :: rest =>
    if c2 = '0' ∨ c2 = '1' then some (30 + (c2.toNat - 48), rest)
    else some (3, c2 :: rest)
  | '0' :: c2 :: rest =>
    if '1' ≤ c2 ∧ c2 ≤ '9' then some (c2.toNat - 48, rest) else none
  | ' ' :: c2 :: rest =>
    if '1' ≤ c2 ∧ c2 ≤ '9' then some (c2.toNat - 48, rest) else none
  | c1 :: c2 :: rest =>
    if (c1 = '1' ∨ c1 = '2') ∧ c2.isDigit then
      some ((c1.toNat - 48) * 10 + (c2.toNat - 48), rest)
    else if '1' ≤ c1 ∧ c1 ≤ '9' then some (c1.toNat - 48, c2 :: rest)
    else none
  | [c] =>
    if '1' ≤ c ∧ c ≤ '9' then some (c.toNat - 48, []) else none
  | [] => none

/-- The `%y` field: the regex `\d\d` — exactly two digits. -/
def readYear2 : List Char → Option (Nat × List Char)
  | c1 :: c2 :: rest =>
    if c1.isDigit ∧ c2.isDigit then
      some ((c1.toNat - 48) * 10 + (c2.toNat - 48), rest)
    else none
  | _ => none

/-- The `%M` field: the regex `[0-5]\d|\d` — 0-59 as one or two digits. -/
def readMinute : List Char → Option (Nat × List Char)
  | c1 :: c2 :: rest =>
    if '0' ≤ c1 ∧ c1 ≤ '5' ∧ c2.isDigit then
      some ((c1.toNat - 48) * 10 + (c2.toNat - 48), rest)
    else if c1.isDigit then some (c1.toNat - 48, c2 :: rest)
    else none
  | [c] => if c.isDigit then some (c.toNat - 48, []) else none
  | [] => none

/-- The `%S` field: the regex `6[0-1]|[0-5]\d|\d` — 0-61, leap seconds
included (values 60/61 then fail `datetime`'s constructor below). -/
def readSecond : List Char → Option (Nat × List Char)
  | '6' :: c2 :: rest =>
    if c2 = '0' ∨ c2 = '1' then some (60 + (c2.toNat - 48), rest)
    else some (6, c2 :: rest)
  | c1 :: c2 :: rest =>
    if '0' ≤ c1 ∧ c1 ≤ '5' ∧ c2.isDigit then
      some ((c1.toNat - 48) * 10 + (c2.toNat - 48), rest)
    else if c1.isDigit then some (c1.toNat - 48, c2 :: rest)
    else none
  | [c] => if c.isDigit then some (c.toNat - 48, []) else none
  | [] => none

/-- Format-string whitespace: `_strptime` replaces any whitespace run in the
format by `\s+`, so it matches one or more whitespace characters. -/
def ws1 : List Char → Option (List Char)
  | c :: rest =>
    if c.isWhitespace then some (rest.dropWhile Char.isWhitespace) else none
  | [] => none

/-- Read `AM`/`PM`, case-insensitively; `true` means PM. -/
def readAmPm : List Char → Option (Bool × List Char)
  | c1 :: c2 :: rest =>
    if (c1 = 'A' ∨ c1 = 'a') ∧ (c2 = 'M' ∨ c2 = 'm') then some (false, rest)
    else if (c1 = 'P' ∨ c1 = 'p') ∧ (c2 = 'M' ∨ c2 = 'm') then some (true, rest)
    else none
  | _ => none

/-- Model of `datetime.strptime` at the two formats the source uses:
`"%m/%d/%y, %I:%M:%S %p"` (`withSeconds = true`, OLD dialect) and
`"%m/%d/%y, %I:%M %p"` (`withSeconds = false`, NEW dialect).  Each numeric
field uses its CPython `_strptime` regex (see the readers above: `%m`/`%I`
only 1-12, `%d` 1-31 with an optional space pad, `%y` exactly two digits,
`%M` 0-59, `%S` 0-61); format whitespace matches `\s+`; AM/PM is matched
case-insensitively (the whole regex carries `IGNORECASE`); the entire string
must be consumed (`unconverted data remains` otherwise).  The two-digit year
uses the POSIX pivot (00-68 → 2000s, 69-99 → 1900s), %I+%p convert as
`_strptime` does (12 AM → 0, 12 PM → 12), and the resulting calendar date
and time of day must satisfy `datetime`'s constructor (day within the month,
second ≤ 59). -/
def parseTimestamp (withSeconds : Bool) (l : List Char) : Option Int := do
  let (mo, l) ← readMonthHour l
  let l ← expectChar '/' l
  let (dy, l) ← readDay l
  let l ← expectChar '/' l
  let (yy, l) ← readYear2 l
  let l ← expectChar ',' l
  let l ← ws1 l
  let (hh, l) ← readMonthHour l
  let l ← expectChar ':' l
  let (mi, l) ← readMinute l
  let (ss, l) ←
    if withSeconds then do
      let l ← expectChar ':' l
      readSecond l
    else pure (0, l)
  let l ← ws1 l
  let (pm, l) ← readAmPm l
  if l = [] then
    let year := if yy ≤ 68 then 2000 + yy else 1900 + yy
    let hour := if pm then (if hh = 12 then 12 else hh + 12)
      else (if hh = 12 then 0 else hh)
    if dy ≤ daysInMonth year mo ∧ ss ≤ 59 then
      some (toEpoch year mo dy hour mi ss)
    else none
  else none

def pad2 (n : Nat) : String := if n < 10 then "0" ++ toString n else toString n

/-- `convert_datetime` from the source: the dialect's date-time rendering,
with the 12-hour rule `0 → 12`, `h ≤ 12 → h`, else `h − 12`. -/
def convert_datetime (t : Int) (version : Version) : String :=
  let n := t.toNat
  let z := n / 86400
  let secs := n % 86400
  let ymd := civilFromDays z
  let hour := secs / 3600
  let minute := (secs / 60) % 60
  let sec := secs % 60
  let h12 := if hour = 0 then 12 else if hour ≤ 12 then hour else hour - 12
  let ampm := if hour < 12 then "AM" else "PM"
  if version = Version.OLD then
    toString ymd.2.1 ++ "/" ++ toString ymd.2.2 ++ "/" ++ pad2 (ymd.1 % 100) ++
      ", " ++ toString h12 ++ ":" ++ pad2 minute ++ ":" ++ pad2 sec ++ " " ++ ampm
  else
    toString ymd.2.1 ++ "/" ++ toString ymd.2.2 ++ "/" ++ pad2 (ymd.1 % 100) ++
      ", " ++ toString h12 ++ ":" ++ pad2 minute ++ " " ++ ampm

/-- `os.path.basename` for the forward-slash paths this model builds. -/
def basename (p : String) : String := (p.split (· = '/')).getLastD p

/-- A Python f-string renders `None` as `"None"`. -/
def optStr : Option String → String
  | some s => s
  | none => "None"

/-- `Message.to_version`.  `none` models an uncaught exception: rendering a
pathless media message in the OLD dialect calls `basename(None)`, which
raises `TypeError`. -/
def Message.to_version : Message → Version → Option String
  | .text t s c, v =>
    if v = Version.OLD then
      some ("[" ++ convert_datetime t v ++ "] " ++ optStr s ++ ": " ++ c)
    else some (convert_datetime t v ++ " - " ++ optStr s ++ ": " ++ c)
  | .system t _ c, v =>
    if v = Version.OLD then some ("[" ++ convert_datetime t v ++ "] " ++ c)
    else some (convert_datetime t v ++ " - " ++ c)
  | .media t s md, v =>
    if v = Version.OLD then
      match md.path with
      | none => none
      | some p =>
        some ("[" ++ convert_datetime t v ++ "] " ++ optStr s ++
          ": <attached: " ++ basename p ++ ">")
    else
      some (convert_datetime t v ++ " - " ++ optStr s ++ ": " ++
        (match md.path with
          | none => "<Media omitted"
          | some p => basename p ++ " (file attached)") ++
        (match md.caption with
          | none => ""
          | some c => "\n" ++ c))

/-- Renders every message in order; `none` as soon as one rendering raises. -/
def renderAll : List Message → Version → Option (List String)
  | [], _ => some []
  | m :: rest, v =>
    match m.to_version v, renderAll rest v with
    | some s, some ss => some (s :: ss)
    | _, _ => none

/-- `Chat.to_version` (string-returning variant): renders every message and
joins with newlines; fails exactly when some message's rendering raises. -/
def chat_to_version (msgs : List Message) (v : Version) : Option String :=
  (renderAll msgs v).map (String.intercalate "\n")

def trimLeft : List Char → List Char
  | [] => []
  | c :: rest => if c.isWhitespace then trimLeft rest else c :: rest

def trimChars (l : List Char) : List Char :=
  trimLeft (trimLeft l.reverse).reverse

/-- `str.index` / the `in` test: index of the first occurrence of `pat`. -/
def subIdx (pat : List Char) : List Char → Option Nat
  | [] => if pat.isEmpty then some 0 else none
  | l@(_ :: rest) =>
    if pat.isPrefixOf l then some 0
    else (subIdx pat rest).map (· + 1)

def PHOTO_TYPES : List String :=
  ["png", "apng", "jpg", "jpeg", "gif", "webp", "avif", "jfif", "pjpeg",
    "pjp", "svg", "bmp", "ico", "tif", "tiff"]

def VIDEO_TYPES : List String := ["mp4", "avi", "mov", "wmv", "mkv", "webm", "flv"]

def AUDIO_TYPES : List String := ["opus", "mp3", "aac", "ogg", "wav"]

/-- Extension-table classification of an attachment (case-insensitive
suffix match, defaulting to OTHER). -/
def classifyMedia (file_name : List Char) : MediaType :=
  let lower := file_name.map Char.toLower
  if PHOTO_TYPES.any (fun ext => ext.toList.isSuffixOf lower) then MediaType.PHOTO
  else if VIDEO_TYPES.any (fun ext => ext.toList.isSuffixOf lower) then MediaType.VIDEO
  else if AUDIO_TYPES.any (fun ext => ext.toList.isSuffixOf lower) then MediaType.AUDIO
  else MediaType.OTHER

/-- Attachment resolution: an exact filename match in the directory listing
yields a concrete path, otherwise the path stays absent. -/
def resolvePath (availableFiles : List String) (dir : String)
    (file_name : List Char) : Option String :=
  if file_name.asString ∈ availableFiles then
    some (dir ++ "/" ++ file_name.asString)
  else none

/-- Parser state: detected dialect, senders seen so far, messages emitted. -/
structure ParseState where
  version : Option Version
  senders : List String
  messages : List Message
deriving DecidableEq, Repr

/-- `set.add`: no-op when present (kept in first-insertion order). -/
def addSender (senders : List String) (s : String) : List String :=
  if s ∈ senders then senders else senders ++ [s]

/-- OLD-dialect continuation handling: append `"\n" + line.strip()` to the
previous Text message's body; if the previous message is not Text (or there
is none), the line is silently dropped. -/
def oldContinuation (st : ParseState) (l : List Char) : ParseState :=
  match st.messages.getLast? with
  | some (.text t s b) =>
    { st with messages :=
        st.messages.dropLast ++ [.text t s (b ++ "\n" ++ (trimChars l).asString)] }
  | _ => st

/-- One OLD-dialect line (after cleaning); `none` is an uncaught
`ValueError`: a leading `[` whose `]` is missing, or whose bracketed
substring fails to parse as an OLD timestamp. -/
def processOld (files : List String) (dir : String) (st : ParseState)
    (l : List Char) : Option ParseState :=
  if ¬ ['['].isPrefixOf l then some (oldContinuation st l)
  else
    match subIdx [']'] l with
    | none => none
    | some timeEnd =>
      match parseTimestamp true ((l.drop 1).take (timeEnd - 1)) with
      | none => none
      | some ts =>
        let rest := l.drop (timeEnd + 2)
        match subIdx [':', ' '] rest with
        | some colI =>
          let colonIdx := colI + timeEnd + 2
          let sender := (rest.take colI).asString
          let senders' := addSender st.senders sender
          match subIdx "<attached: ".toList l with
          | some attachedIdx =>
            let fileName :=
              (l.drop (attachedIdx + 11)).take (l.length - 1 - (attachedIdx + 11))
            some ⟨st.version, senders',
              st.messages ++ [.media ts (some sender)
                ⟨classifyMedia fileName, resolvePath files dir fileName, none⟩]⟩
          | none =>
            if (trimChars (l.drop (colonIdx + 2))).asString =
                "This message was deleted." then
              some ⟨st.version, senders', st.messages⟩
            else
              some ⟨st.version, senders',
                st.messages ++ [.text ts (some sender)
                  (trimChars (l.drop (colonIdx + 2))).asString]⟩
        | none =>
          let sender := st.senders.find? (fun s => s.toList.isPrefixOf rest)
          some { st with
            messages := st.messages ++ [.system ts sender (trimChars rest).asString] }

theorem oldContinuation_senders (st : ParseState) (l : List Char) :
    (oldContinuation st l).senders = st.senders := by
  unfold oldContinuation
  split <;> rfl

/-- C9: during OLD parsing, a non-blank line that does not start with `[`
never raises and emits no new message: if the most recently emitted message
is a Text message, a newline and the stripped line are appended to its body;
otherwise (previous message not Text, or no message yet) the state is
unchanged — the line is silently dropped.  Senders are untouched. -/
theorem old_continuation_behavior (files : List String) (dir : String)
    (st : ParseState) (l : List Char) (hne : l ≠ [])
    (hnb : ¬ ['['].isPrefixOf l = true) :
    processOld files dir st l = some (oldContinuation st l) ∧
    (oldContinuation st l).messages.length = st.messages.length ∧
    (oldContinuation st l).senders = st.senders ∧
    (∀ (ms : List Message) (t : Int) (s : Option String) (b : String),
      st.messages = ms ++ [Message.text t s b] →
      (oldContinuation st l).messages =
        ms ++ [Message.text t s (b ++ "\n" ++ (trimChars l).asString)]) ∧
    ((∀ (t : Int) (s : Option String) (b : String),
        st.messages.getLast? ≠ some (Message.text t s b)) →
      oldContinuation st l = st) := by
  refine ⟨?_, ?_, oldContinuation_senders st l, ?_, ?_⟩
  · unfold processOld
    rw [if_pos hnb]
  · unfold oldContinuation
    cases hl : st.messages.getLast? with
    | none => rfl
    | some m =>
      cases m with
      | text t s b =>
        have hnem : st.messages ≠ [] := by
          intro he
          rw [he] at hl
          simp at hl
        have hpos : 0 < st.messages.length := List.length_pos.mpr hnem
        simp [List.length_dropLast]
        omega
      | media t s md => rfl
      | system t s b => rfl
  · intro ms t s b hms
    unfold oldContinuation
    rw [hms, List.getLast?_concat, List.dropLast_concat]
  · intro hno
    unfold oldContinuation
    cases hl : st.messages.getLast? with
    | none => rfl
    | some m =>
      cases m with
      | text t s b => exact absurd hl (hno t s b)
      | media t s md => rfl
      | system t s b => rfl

/-- Witness for C9: a continuation line appended to a trailing Text body. -/
theorem old_continuation_behavior_witness :
    processOld [] "d" ⟨some Version.OLD, ["a"], [Message.text 0 (some "a") "x"]⟩
        "more".toList =
      some ⟨some Version.OLD, ["a"], [Message.text 0 (some "a") "x\nmore"]⟩ := by
  have h := old_continuation_behavior [] "d"
    ⟨some Version.OLD, ["a"], [Message.text 0 (some "a") "x"]⟩ "more".toList
    (by decide) (by decide)
  exact h.1.trans (by decide)

/-- C10: rendering a media message whose path is absent raises in the OLD
dialect (`basename(None)` — modelled as `none`) but succeeds in the NEW
dialect with a line containing `<Media omitted`; consequently an OLD-dialect
render of a whole chat is total only when every media path is resolved. -/
theorem media_old_render_partial :
    (∀ (t : Int) (s : Option String) (mt : MediaType) (cap : Option String),
      Message.to_version (.media t s ⟨mt, none, cap⟩) Version.OLD = none ∧
      ∃ pre post, Message.to_version (.media t s ⟨mt, none, cap⟩) Version.NEW =
        some (pre ++ "<Media omitted" ++ post)) ∧
    (∀ msgs : List Message, (chat_to_version msgs Version.OLD).isSome = true →
      ∀ (t : Int) (s : Option String) (md : Media),
        Message.media t s md ∈ msgs → md.path ≠ none) := by
  constructor
  · intro t s mt cap
    refine ⟨rfl, convert_datetime t Version.NEW ++ " - " ++ optStr s ++ ": ",
      (match cap with | none => "" | some c => "\n" ++ c), ?_⟩
    cases cap <;> simp [Message.to_version, String.append_assoc]
  · intro msgs
    induction msgs with
    | nil =>
      intro _ t s md hmem
      simp at hmem
    | cons m rest ih =>
      intro hsome t s md hmem
      cases hm : m.to_version Version.OLD with
      | none =>
        rw [show chat_to_version (m :: rest) Version.OLD =
            ((match m.to_version Version.OLD, renderAll rest Version.OLD with
              | some s, some ss => some (s :: ss)
              | _, _ => none).map (String.intercalate "\n")) from rfl, hm] at hsome
        cases hrr : renderAll rest Version.OLD <;> rw [hrr] at hsome <;>
          simp at hsome
      | some str =>
        cases hr : renderAll rest Version.OLD with
        | none =>
          rw [show chat_to_version (m :: rest) Version.OLD =
              ((match m.to_version Version.OLD, renderAll rest Version.OLD with
                | some s, some ss => some (s :: ss)
                | _, _ => none).map (String.intercalate "\n")) from rfl,
            hm, hr] at hsome
          simp at hsome
        | some ss =>
          rcases List.mem_cons.mp hmem with heq | hmem'
          · rw [← heq] at hm
            cases hp : md.path with
            | none =>
              rw [show (Message.media t s md).to_version Version.OLD =
                  (match md.path with
                    | none => none
                    | some p =>
                      some ("[" ++ convert_datetime t Version.OLD ++ "] " ++
                        optStr s ++ ": <attached: " ++ basename p ++ ">"))
                from rfl, hp] at hm
              cases hm
            | some p => simp [hp]
          · exact ih (by simp [chat_to_version, hr]) t s md hmem'

/-- Witness for C10: a chat whose single media message renders in OLD, whose
path is therefore necessarily resolved. -/
theorem media_old_render_partial_witness :
    (Media.mk MediaType.PHOTO (some "d/f.png") none).path ≠ none := by
  have h := media_old_render_partial
  exact h.2 [Message.media 0 (some "a") ⟨MediaType.PHOTO, some "d/f.png", none⟩]
    (by rfl) 0 (some "a") ⟨MediaType.PHOTO, some "d/f.png", none⟩ (by simp)

end WhatsApp

namespace WhatsApp

/-- C5: message equivalence is exactly: same variant, timestamps within one
day, equal senders, and variant-specific content equality; messages of
different variants are never equivalent. -/
theorem message_equivalence_characterization (m1 m2 : Message) :
    (Message.eq m1 m2 = true ↔
      (sameVariant m1 m2 = true ∧ (m1.timestamp - m2.timestamp).natAbs ≤ 86400 ∧
        m1.sender = m2.sender ∧ contentEq m1 m2 = true)) ∧
    (sameVariant m1 m2 = false → Message.eq m1 m2 = false) := by
  cases m1 <;> cases m2 <;>
    simp [Message.eq, sameVariant, contentEq, Message.timestamp, Message.sender,
      and_assoc]

/-- Witness for C5: a Text and a Media message (different variants) are never
equivalent, by the characterization applied at concrete messages. -/
theorem message_equivalence_characterization_witness :
    Message.eq (Message.text 0 none "a")
      (Message.media 0 none ⟨MediaType.OTHER, none, none⟩) = false :=
  (message_equivalence_characterization (Message.text 0 none "a")
    (Message.media 0 none ⟨MediaType.OTHER, none, none⟩)).2 (by decide)

/-- C6: Media equivalence is exactly: kinds equal or one `OTHER`, and captions
equal or one absent; the `path` field never influences the result; with the
two concrete instances from the spec. -/
theorem media_equivalence_characterization :
    (∀ a b : Media,
      Media.eq a b = true ↔
        ((a.media_type = b.media_type ∨ a.media_type = MediaType.OTHER ∨
            b.media_type = MediaType.OTHER) ∧
          (a.caption = b.caption ∨ a.caption = none ∨ b.caption = none))) ∧
    (∀ a b : Media, ∀ p1 p2 : Option String,
      Media.eq { a with path := p1 } { b with path := p2 } = Media.eq a b) ∧
    Media.eq ⟨MediaType.PHOTO, some "pathA", none⟩
      ⟨MediaType.OTHER, some "pathB", none⟩ = true ∧
    Media.eq ⟨MediaType.PHOTO, some "p1", some "capA"⟩
      ⟨MediaType.PHOTO, some "p2", some "capB"⟩ = false := by
  refine ⟨?_, ?_, by decide, by decide⟩
  · intro a b
    have heq : Media.eq a b = true ↔
        (¬(a.media_type ≠ MediaType.OTHER ∧ b.media_type ≠ MediaType.OTHER ∧
            a.media_type ≠ b.media_type) ∧
          ¬(a.caption ≠ none ∧ b.caption ≠ none ∧ a.caption ≠ b.caption)) := by
      unfold Media.eq
      by_cases h1 : (a.media_type ≠ MediaType.OTHER ∧ b.media_type ≠ MediaType.OTHER ∧
          a.media_type ≠ b.media_type) <;>
        by_cases h2 : (a.caption ≠ none ∧ b.caption ≠ none ∧ a.caption ≠ b.caption) <;>
        simp [h1, h2]
    rw [heq]
    constructor
    · rintro ⟨h1, h2⟩
      exact ⟨by tauto, by tauto⟩
    · rintro ⟨h1, h2⟩
      exact ⟨by tauto, by tauto⟩
  · intro a b p1 p2
    simp [Media.eq]

/-- Two two-message chats on which no rule of the main loop applies at
cursors `(1, 1)`: the heads match, the tails differ in content only, the
windowed search cannot fit, and the two timestamp gaps are equal. -/
def stallA : List Message :=
  [.text 0 (some "x") "aaaa", .text 60 (some "x") "bbbb"]

def stallB : List Message :=
  [.text 0 (some "x") "aaaa", .text 60 (some "x") "cccc"]

/-- If an in-bounds state is a fixed point of the loop body, the loop never
finishes, whatever the fuel. -/
theorem combineLoop_stuck (c1 c2 : List Message) :
    ∀ fuel : Nat, ∀ s : AlignState, combineStep c1 c2 s = s →
      s.i < c1.length → s.j < c2.length → combineLoop c1 c2 fuel s = none := by
  intro fuel
  induction fuel with
  | zero => intro s _ _ _; rfl
  | succ n ih =>
    intro s hstep hi hj
    show (if s.i < c1.length ∧ s.j < c2.length then
        combineLoop c1 c2 n (combineStep c1 c2 s)
      else some (s.out ++ c1.drop s.i ++ c2.drop s.j)) = none
    rw [if_pos ⟨hi, hj⟩, hstep]
    exact ih s hstep hi hj

/-- C1: `combine_chats` does not terminate on all inputs.  On `stallA` /
`stallB` the loop reaches cursors `(1, 1)`, where direct match, windowed
reorder and skew drain all fail to apply; the reference body then advances
neither cursor, so the loop spins forever (the run is `none` for every
fuel), contrary to the claimed forced-progress rule. -/
theorem combine_chats_can_stall :
    ∀ fuel : Nat, combine_chats stallA stallB fuel = none := by
  intro fuel
  cases fuel with
  | zero => rfl
  | succ n =>
    show (if (0 < stallA.length ∧ 0 < stallB.length) then
        combineLoop stallA stallB n (combineStep stallA stallB ⟨0, 0, []⟩)
      else some ([] ++ stallA.drop 0 ++ stallB.drop 0)) = none
    rw [if_pos (by decide)]
    have hstep0 : combineStep stallA stallB ⟨0, 0, []⟩ =
        ⟨1, 1, [Message.text 0 (some "x") "aaaa"]⟩ := by decide
    rw [hstep0]
    exact combineLoop_stuck stallA stallB n _ (by decide) (by decide) (by decide)

/-- The drain loop appends exactly the longest prefix of the remaining
suffix on which `stop` fails, and ends at the index just past it. -/
theorem drainFrom_char (l : List Message) (stop : Message → Bool) :
    ∀ k, drainFrom l k stop =
      ((l.drop k).takeWhile (fun x => !stop x),
        k + ((l.drop k).takeWhile (fun x => !stop x)).length) := by
  have H : ∀ n k, l.length - k ≤ n → drainFrom l k stop =
      ((l.drop k).takeWhile (fun x => !stop x),
        k + ((l.drop k).takeWhile (fun x => !stop x)).length) := by
    intro n
    induction n with
    | zero =>
      intro k hk
      have hge : l.length ≤ k := by omega
      have hdrop : l.drop k = [] := List.drop_eq_nil_of_le hge
      rw [drainFrom]
      have : ¬ k < l.length := by omega
      simp [this, hdrop]
    | succ n ih =>
      intro k hk
      rw [drainFrom]
      by_cases h : k < l.length
      · have hdrop : l.drop k = l[k] :: l.drop (k + 1) :=
          List.drop_eq_getElem_cons h
        have hnth : nthMsg l k = l[k] := List.getD_eq_getElem l dfltMsg h
        by_cases hs : stop (nthMsg l k)
        · have hs' : stop l[k] = true := hnth ▸ hs
          simp only [h, dif_pos, hs, if_pos]
          rw [hdrop, List.takeWhile_cons]
          simp [hs']
        · have hs' : stop l[k] = false := by
            rw [← hnth]
            exact Bool.not_eq_true _ ▸ hs
          simp only [h, dif_pos, hs, if_neg, Bool.not_eq_true]
          rw [ih (k + 1) (by omega), hdrop, List.takeWhile_cons]
          simp [hs', hnth]
          omega
      · have hdrop : l.drop k = [] := List.drop_eq_nil_of_le (by omega)
        simp [h, hdrop]
  intro k
  exact H (l.length - k) k (le_refl _)

/-- The drain ends either at the end of the sequence or at the first message
satisfying `stop`. -/
theorem drainFrom_stops (l : List Message) (stop : Message → Bool) (k : Nat)
    (hk : k ≤ l.length) :
    (drainFrom l k stop).2 = l.length ∨
      stop (nthMsg l (drainFrom l k stop).2) = true := by
  have H : ∀ n k, l.length - k ≤ n → k ≤ l.length →
      (drainFrom l k stop).2 = l.length ∨
        stop (nthMsg l (drainFrom l k stop).2) = true := by
    intro n
    induction n with
    | zero =>
      intro k hk hk2
      rw [drainFrom]
      have : ¬ k < l.length := by omega
      simp [this]
      omega
    | succ n ih =>
      intro k hk hk2
      rw [drainFrom]
      by_cases h : k < l.length
      · by_cases hs : stop (nthMsg l k)
        · simp [h, hs]
        · simp only [h, dif_pos, hs, if_neg, Bool.not_eq_true]
          exact ih (k + 1) (by omega) (by omega)
      · simp [h]
        omega
  exact H (l.length - k) k (le_refl _) hk

theorem mediaEq_symm (a b : Media) : Media.eq a b = Media.eq b a := by
  have hk : (a.media_type ≠ MediaType.OTHER ∧ b.media_type ≠ MediaType.OTHER ∧
      a.media_type ≠ b.media_type) ↔
      (b.media_type ≠ MediaType.OTHER ∧ a.media_type ≠ MediaType.OTHER ∧
        b.media_type ≠ a.media_type) := by
    constructor
    · rintro ⟨x, y, z⟩
      exact ⟨y, x, fun e => z e.symm⟩
    · rintro ⟨x, y, z⟩
      exact ⟨y, x, fun e => z e.symm⟩
  have hc : (a.caption ≠ none ∧ b.caption ≠ none ∧ a.caption ≠ b.caption) ↔
      (b.caption ≠ none ∧ a.caption ≠ none ∧ b.caption ≠ a.caption) := by
    constructor
    · rintro ⟨x, y, z⟩
      exact ⟨y, x, fun e => z e.symm⟩
    · rintro ⟨x, y, z⟩
      exact ⟨y, x, fun e => z e.symm⟩
  unfold Media.eq
  by_cases p : (a.media_type ≠ MediaType.OTHER ∧ b.media_type ≠ MediaType.OTHER ∧
      a.media_type ≠ b.media_type)
  · rw [if_pos p, if_pos (hk.mp p)]
  · rw [if_neg p, if_neg (fun q' => p (hk.mpr q'))]
    by_cases q : (a.caption ≠ none ∧ b.caption ≠ none ∧ a.caption ≠ b.caption)
    · rw [if_pos q, if_pos (hc.mp q)]
    · rw [if_neg q, if_neg (fun r => q (hc.mpr r))]

theorem messageEq_symm (m1 m2 : Message) : Message.eq m1 m2 = Message.eq m2 m1 := by
  have hab : ∀ x y : Int, (x - y).natAbs = (y - x).natAbs := fun x y => by omega
  cases m1 <;> cases m2 <;>
    simp [Message.eq, hab, mediaEq_symm, eq_comm, and_comm]

/-- The drain never runs past the end of the sequence. -/
theorem drainFrom_le (l : List Message) (stop : Message → Bool) (k : Nat)
    (hk : k ≤ l.length) : (drainFrom l k stop).2 ≤ l.length := by
  rw [drainFrom_char]
  have h1 : ((l.drop k).takeWhile (fun x => !stop x)).length ≤ (l.drop k).length :=
    (List.takeWhile_prefix _).length_le
  simp at h1 ⊢
  omega

/-- Unfolding of the loop body when side 1's gap wins the skew comparison:
the body drains side 2. -/
theorem combineStep_skew1 (c1 c2 : List Message) (s : AlignState)
    (hne : Message.eq (nthMsg c1 s.i) (nthMsg c2 s.j) = false)
    (hw : windowSearch c1 c2 s.i s.j = none)
    (hp : 0 < s.i ∧ 0 < s.j)
    (hgap : (nthMsg c1 s.i).timestamp - (nthMsg c1 (s.i - 1)).timestamp -
        ((nthMsg c2 s.j).timestamp - (nthMsg c2 (s.j - 1)).timestamp) > oneDay) :
    combineStep c1 c2 s =
      ⟨s.i, (drainFrom c2 s.j fun x => Message.eq x (nthMsg c1 s.i)).2,
        s.out ++ (drainFrom c2 s.j fun x => Message.eq x (nthMsg c1 s.i)).1⟩ := by
  have hgt : (nthMsg c1 s.i).timestamp - (nthMsg c1 (s.i - 1)).timestamp >
      (nthMsg c2 s.j).timestamp - (nthMsg c2 (s.j - 1)).timestamp := by
    have hd : oneDay = 86400 := rfl
    rw [hd] at hgap
    omega
  unfold combineStep
  simp only [hne, Bool.false_eq_true, if_false, hw]
  rw [if_pos hp, if_pos ⟨hgt, hgap⟩]

/-- Unfolding of the loop body when side 2's gap wins the skew comparison:
the body drains side 1. -/
theorem combineStep_skew2 (c1 c2 : List Message) (s : AlignState)
    (hne : Message.eq (nthMsg c1 s.i) (nthMsg c2 s.j) = false)
    (hw : windowSearch c1 c2 s.i s.j = none)
    (hp : 0 < s.i ∧ 0 < s.j)
    (hgap : (nthMsg c2 s.j).timestamp - (nthMsg c2 (s.j - 1)).timestamp -
        ((nthMsg c1 s.i).timestamp - (nthMsg c1 (s.i - 1)).timestamp) > oneDay) :
    combineStep c1 c2 s =
      ⟨(drainFrom c1 s.i fun x => Message.eq (nthMsg c2 s.j) x).2, s.j,
        s.out ++ (drainFrom c1 s.i fun x => Message.eq (nthMsg c2 s.j) x).1⟩ := by
  have hgt : (nthMsg c2 s.j).timestamp - (nthMsg c2 (s.j - 1)).timestamp >
      (nthMsg c1 s.i).timestamp - (nthMsg c1 (s.i - 1)).timestamp := by
    have hd : oneDay = 86400 := rfl
    rw [hd] at hgap
    omega
  have hnot : ¬((nthMsg c1 s.i).timestamp - (nthMsg c1 (s.i - 1)).timestamp >
      (nthMsg c2 s.j).timestamp - (nthMsg c2 (s.j - 1)).timestamp ∧
      (nthMsg c1 s.i).timestamp - (nthMsg c1 (s.i - 1)).timestamp -
        ((nthMsg c2 s.j).timestamp - (nthMsg c2 (s.j - 1)).timestamp) > oneDay) := by
    rintro ⟨h1, _⟩
    omega
  unfold combineStep
  simp only [hne, Bool.false_eq_true, if_false, hw]
  rw [if_pos hp, if_neg hnot, if_pos ⟨hgt, hgap⟩]

/-- Formalization of claim C3 exactly as the spec words it (modelled from the
spec sentence, to be compared with the source behavior): when side 1 is the
long-gap side, side 1's current messages are repeatedly appended unmerged and
only side 1's cursor advances, until side 1's current message becomes
equivalent to side 2's current message or side 1 is exhausted. -/
def skewDrainClaim : Prop :=
  ∀ (c1 c2 : List Message) (s : AlignState),
    0 < s.i → 0 < s.j → s.i < c1.length → s.j < c2.length →
    Message.eq (nthMsg c1 s.i) (nthMsg c2 s.j) = false →
    windowSearch c1 c2 s.i s.j = none →
    (nthMsg c1 s.i).timestamp - (nthMsg c1 (s.i - 1)).timestamp -
        ((nthMsg c2 s.j).timestamp - (nthMsg c2 (s.j - 1)).timestamp) > oneDay →
    combineStep c1 c2 s =
      ⟨s.i + ((c1.drop s.i).takeWhile fun x => !Message.eq x (nthMsg c2 s.j)).length,
        s.j,
        s.out ++ ((c1.drop s.i).takeWhile fun x => !Message.eq x (nthMsg c2 s.j))⟩

/-- On this pair, at cursors `(1, 1)`, side 1's gap (4 days) exceeds side 2's
gap (60 s) by far more than one day. -/
def skewA : List Message :=
  [.text 0 (some "x") "aaaa", .text 345600 (some "x") "xxxx"]

def skewB : List Message :=
  [.text 0 (some "x") "aaaa", .text 60 (some "x") "bbbb",
    .text 345600 (some "x") "xxxx"]

/-- C3 counterexample: the claim, as stated, is false.  On `skewA` / `skewB`
at cursors `(1, 1)` the long-gap side is side 1, but the loop appends side
2's message `"bbbb"` and advances side 2's cursor, leaving side 1 untouched —
the opposite of what the claim predicts. -/
theorem skew_drain_claim_false : ¬ skewDrainClaim := by
  intro h
  have h2 := h skewA skewB ⟨1, 1, []⟩ (by decide) (by decide) (by decide)
    (by decide) (by decide) (by decide) (by decide)
  exact absurd h2 (by decide)

/-- C3 amended: in the skew-drain step, when one side's gap exceeds the other
side's gap by more than one day, the messages of the SHORT-gap side (the
other side) are repeatedly appended to the output unmerged and only that
side's cursor is advanced, until its current message becomes equivalent to
the long-gap side's current message or that side is exhausted. -/
theorem skew_drain_behavior (c1 c2 : List Message) (s : AlignState)
    (hip : 0 < s.i) (hjp : 0 < s.j) (hi : s.i < c1.length) (hj : s.j < c2.length)
    (hne : Message.eq (nthMsg c1 s.i) (nthMsg c2 s.j) = false)
    (hw : windowSearch c1 c2 s.i s.j = none) :
    ((nthMsg c1 s.i).timestamp - (nthMsg c1 (s.i - 1)).timestamp -
        ((nthMsg c2 s.j).timestamp - (nthMsg c2 (s.j - 1)).timestamp) > oneDay →
      combineStep c1 c2 s =
        ⟨s.i,
          s.j + ((c2.drop s.j).takeWhile fun x => !Message.eq x (nthMsg c1 s.i)).length,
          s.out ++ ((c2.drop s.j).takeWhile fun x => !Message.eq x (nthMsg c1 s.i))⟩ ∧
      1 ≤ ((c2.drop s.j).takeWhile fun x => !Message.eq x (nthMsg c1 s.i)).length ∧
      (s.j + ((c2.drop s.j).takeWhile fun x => !Message.eq x (nthMsg c1 s.i)).length =
          c2.length ∨
        Message.eq
          (nthMsg c2
            (s.j + ((c2.drop s.j).takeWhile fun x => !Message.eq x (nthMsg c1 s.i)).length))
          (nthMsg c1 s.i) = true)) ∧
    ((nthMsg c2 s.j).timestamp - (nthMsg c2 (s.j - 1)).timestamp -
        ((nthMsg c1 s.i).timestamp - (nthMsg c1 (s.i - 1)).timestamp) > oneDay →
      combineStep c1 c2 s =
        ⟨s.i + ((c1.drop s.i).takeWhile fun x => !Message.eq (nthMsg c2 s.j) x).length,
          s.j,
          s.out ++ ((c1.drop s.i).takeWhile fun x => !Message.eq (nthMsg c2 s.j) x)⟩ ∧
      1 ≤ ((c1.drop s.i).takeWhile fun x => !Message.eq (nthMsg c2 s.j) x).length ∧
      (s.i + ((c1.drop s.i).takeWhile fun x => !Message.eq (nthMsg c2 s.j) x).length =
          c1.length ∨
        Message.eq (nthMsg c2 s.j)
          (nthMsg c1
            (s.i + ((c1.drop s.i).takeWhile fun x => !Message.eq (nthMsg c2 s.j) x).length))
          = true)) := by
  constructor
  · intro hgap
    have hstep := combineStep_skew1 c1 c2 s hne hw ⟨hip, hjp⟩ hgap
    have hchar := drainFrom_char c2 (fun x => Message.eq x (nthMsg c1 s.i)) s.j
    have hstop := drainFrom_stops c2 (fun x => Message.eq x (nthMsg c1 s.i)) s.j
      (le_of_lt hj)
    refine ⟨?_, ?_, ?_⟩
    · rw [hstep, hchar]
    · have hnthj : nthMsg c2 s.j = c2[s.j] := List.getD_eq_getElem c2 dfltMsg hj
      have hdrop : c2.drop s.j = c2[s.j] :: c2.drop (s.j + 1) :=
        List.drop_eq_getElem_cons hj
      have hhead : Message.eq c2[s.j] (nthMsg c1 s.i) = false := by
        rw [← hnthj, messageEq_symm]
        exact hne
      rw [hdrop, List.takeWhile_cons]
      simp [hhead]
    · rw [hchar] at hstop
      simpa using hstop
  · intro hgap
    have hstep := combineStep_skew2 c1 c2 s hne hw ⟨hip, hjp⟩ hgap
    have hchar := drainFrom_char c1 (fun x => Message.eq (nthMsg c2 s.j) x) s.i
    have hstop := drainFrom_stops c1 (fun x => Message.eq (nthMsg c2 s.j) x) s.i
      (le_of_lt hi)
    refine ⟨?_, ?_, ?_⟩
    · rw [hstep, hchar]
    · have hnthi : nthMsg c1 s.i = c1[s.i] := List.getD_eq_getElem c1 dfltMsg hi
      have hdrop : c1.drop s.i = c1[s.i] :: c1.drop (s.i + 1) :=
        List.drop_eq_getElem_cons hi
      have hhead : Message.eq (nthMsg c2 s.j) c1[s.i] = false := by
        rw [← hnthi, messageEq_symm]
        exact hne
      rw [hdrop, List.takeWhile_cons]
      simp [hhead]
    · rw [hchar] at hstop
      simpa using hstop

/-- Witness for C3's amended theorem: applying it on `skewA` / `skewB` at
cursors `(1, 1)` shows the loop emits side 2's `"bbbb"` unmerged and advances
only side 2's cursor. -/
theorem skew_drain_behavior_witness :
    combineStep skewA skewB ⟨1, 1, []⟩ =
      ⟨1, 2, [Message.text 60 (some "x") "bbbb"]⟩ := by
  have h := (skew_drain_behavior skewA skewB ⟨1, 1, []⟩ (by decide) (by decide)
      (by decide) (by decide) (by decide) (by decide)).1 (by decide)
  exact h.1.trans (by decide)

/-- A successful window search fits inside both remaining suffixes. -/
theorem windowSearchAux_bounds (c1 c2 : List Message) (i j : Nat) :
    ∀ ws w combo, windowSearchAux c1 c2 i j ws = some (w, combo) →
      i + w ≤ c1.length ∧ j + w ≤ c2.length := by
  intro ws
  induction ws with
  | nil =>
    intro w combo h
    exact absurd h (by simp [windowSearchAux])
  | cons a as ih =>
    intro w combo h
    unfold windowSearchAux at h
    by_cases hb : i + a > c1.length ∨ j + a > c2.length
    · rw [if_pos hb] at h
      exact absurd h (by simp)
    · rw [if_neg hb] at h
      cases hf : (permsOf a).find? (comboMatches c1 c2 i j a) with
      | some combo' =>
        rw [hf] at h
        have hwa : a = w := by
          injection h with h'
          exact congrArg Prod.fst h'
        subst hwa
        push_neg at hb
        omega
      | none =>
        rw [hf] at h
        exact ih w combo h

theorem windowSearch_bounds (c1 c2 : List Message) (i j w : Nat) (combo : List Nat)
    (h : windowSearch c1 c2 i j = some (w, combo)) :
    i + w ≤ c1.length ∧ j + w ≤ c2.length :=
  windowSearchAux_bounds c1 c2 i j [2, 3, 4, 5] w combo h

theorem windowMerged_length (c1 c2 : List Message) (i j w : Nat) (combo : List Nat) :
    (windowMerged c1 c2 i j w combo).length = w := by
  simp [windowMerged]

/-- The loop body does exactly one of: a direct merge, a window merge, a
side-2 drain, a side-1 drain, or nothing. -/
theorem combineStep_cases (c1 c2 : List Message) (s : AlignState) :
    (∃ m, combineStep c1 c2 s = ⟨s.i + 1, s.j + 1, s.out ++ [m]⟩) ∨
    (∃ w combo, windowSearch c1 c2 s.i s.j = some (w, combo) ∧
      combineStep c1 c2 s =
        ⟨s.i + w, s.j + w, s.out ++ windowMerged c1 c2 s.i s.j w combo⟩) ∨
    (∃ stop, combineStep c1 c2 s =
      ⟨s.i, (drainFrom c2 s.j stop).2, s.out ++ (drainFrom c2 s.j stop).1⟩) ∨
    (∃ stop, combineStep c1 c2 s =
      ⟨(drainFrom c1 s.i stop).2, s.j, s.out ++ (drainFrom c1 s.i stop).1⟩) ∨
    combineStep c1 c2 s = s := by
  by_cases h1 : Message.eq (nthMsg c1 s.i) (nthMsg c2 s.j) = true
  · left
    exact ⟨_, by unfold combineStep; rw [if_pos h1]⟩
  · have h1' : ¬ (Message.eq (nthMsg c1 s.i) (nthMsg c2 s.j) = true) := h1
    cases hw : windowSearch c1 c2 s.i s.j with
    | some p =>
      obtain ⟨w, combo⟩ := p
      right; left
      refine ⟨w, combo, rfl, ?_⟩
      unfold combineStep
      rw [if_neg h1', hw]
    | none =>
      by_cases hp : 0 < s.i ∧ 0 < s.j
      · by_cases hg1 : (nthMsg c1 s.i).timestamp - (nthMsg c1 (s.i - 1)).timestamp >
            (nthMsg c2 s.j).timestamp - (nthMsg c2 (s.j - 1)).timestamp ∧
            (nthMsg c1 s.i).timestamp - (nthMsg c1 (s.i - 1)).timestamp -
              ((nthMsg c2 s.j).timestamp - (nthMsg c2 (s.j - 1)).timestamp) > oneDay
        · right; right; left
          exact ⟨_, by unfold combineStep; rw [if_neg h1', hw, if_pos hp, if_pos hg1]⟩
        · by_cases hg2 : (nthMsg c2 s.j).timestamp - (nthMsg c2 (s.j - 1)).timestamp >
              (nthMsg c1 s.i).timestamp - (nthMsg c1 (s.i - 1)).timestamp ∧
              (nthMsg c2 s.j).timestamp - (nthMsg c2 (s.j - 1)).timestamp -
                ((nthMsg c1 s.i).timestamp - (nthMsg c1 (s.i - 1)).timestamp) > oneDay
          · right; right; right; left
            exact ⟨_, by
              unfold combineStep
              rw [if_neg h1', hw, if_pos hp, if_neg hg1, if_pos hg2]⟩
          · right; right; right; right
            unfold combineStep
            rw [if_neg h1', hw, if_pos hp, if_neg hg1, if_neg hg2]
      · right; right; right; right
        unfold combineStep
        rw [if_neg h1', hw, if_neg hp]

/-- Invariant-carrying induction for the length bounds of the merged output. -/
theorem combineLoop_bounds (c1 c2 : List Message) :
    ∀ fuel : Nat, ∀ s : AlignState, ∀ res : List Message,
      s.i ≤ c1.length → s.j ≤ c2.length →
      s.out.length ≤ s.i + s.j → max s.i s.j ≤ s.out.length →
      combineLoop c1 c2 fuel s = some res →
      max c1.length c2.length ≤ res.length ∧
        res.length ≤ c1.length + c2.length := by
  intro fuel
  induction fuel with
  | zero =>
    intro s res _ _ _ _ h
    exact absurd h (by simp [combineLoop])
  | succ n ih =>
    intro s res hi hj ho hm h
    rw [combineLoop] at h
    by_cases hc : s.i < c1.length ∧ s.j < c2.length
    · rw [if_pos hc] at h
      rcases combineStep_cases c1 c2 s with ⟨m, he⟩ | ⟨w, combo, hwnd, he⟩ |
        ⟨stop, he⟩ | ⟨stop, he⟩ | he
      · rw [he] at h
        refine ih _ res ?_ ?_ ?_ ?_ h <;> simp <;> omega
      · rw [he] at h
        obtain ⟨hb1, hb2⟩ := windowSearch_bounds c1 c2 s.i s.j w combo hwnd
        refine ih _ res ?_ ?_ ?_ ?_ h <;>
          simp [windowMerged_length] <;> omega
      · rw [he] at h
        have hlen := drainFrom_char c2 stop s.j
        have hle := drainFrom_le c2 stop s.j hj
        refine ih _ res ?_ ?_ ?_ ?_ h <;> simp [hlen] at hle ⊢ <;> omega
      · rw [he] at h
        have hlen := drainFrom_char c1 stop s.i
        have hle := drainFrom_le c1 stop s.i hi
        refine ih _ res ?_ ?_ ?_ ?_ h <;> simp [hlen] at hle ⊢ <;> omega
      · rw [he] at h
        exact ih s res hi hj ho hm h
    · rw [if_neg hc] at h
      have hres : res = s.out ++ c1.drop s.i ++ c2.drop s.j := (Option.some.inj h).symm
      rw [hres]
      simp only [List.length_append, List.length_drop]
      omega

/-- C4: whenever `combine_chats` finishes, the merged sequence's length lies
between `max(len(A), len(B))` and `len(A) + len(B)`. -/
theorem combine_chats_length_bounds (c1 c2 : List Message) (fuel : Nat)
    (res : List Message) (h : combine_chats c1 c2 fuel = some res) :
    max c1.length c2.length ≤ res.length ∧
      res.length ≤ c1.length + c2.length := by
  refine combineLoop_bounds c1 c2 fuel ⟨0, 0, []⟩ res ?_ ?_ ?_ ?_ h <;> simp

/-- Witness for C4 at a concrete one-message pair. -/
theorem combine_chats_length_bounds_witness :
    max [Message.text 0 none "m"].length [Message.text 0 none "m"].length ≤
        [Message.text 0 none "m"].length ∧
      [Message.text 0 none "m"].length ≤
        [Message.text 0 none "m"].length + [Message.text 0 none "m"].length :=
  combine_chats_length_bounds [Message.text 0 none "m"] [Message.text 0 none "m"]
    2 [Message.text 0 none "m"] (by decide)

theorem mediaEq_refl (a : Media) : Media.eq a a = true := by
  unfold Media.eq
  rw [if_neg, if_neg] <;> rintro ⟨_, _, h⟩ <;> exact h rfl

theorem messageEq_refl (m : Message) : Message.eq m m = true := by
  cases m <;> simp [Message.eq, mediaEq_refl, Int.sub_self]

theorem merge_messages_self (m : Message) : merge_messages m m = m := by
  cases m with
  | text t s c => rfl
  | system t s c => rfl
  | media t s c =>
    obtain ⟨mt, p, cap⟩ := c
    cases mt <;> cases p <;> cases cap <;> rfl

/-- Merging a chat with itself walks both cursors in lockstep, re-emitting
each message unchanged. -/
theorem combineLoop_self (C : List Message) :
    ∀ fuel k : Nat, ∀ out : List Message, C.length - k < fuel →
      combineLoop C C fuel ⟨k, k, out⟩ = some (out ++ C.drop k) := by
  intro fuel
  induction fuel with
  | zero =>
    intro k out h
    omega
  | succ n ih =>
    intro k out h
    rw [combineLoop]
    by_cases hk : k < C.length
    · rw [if_pos ⟨hk, hk⟩]
      have hstep : combineStep C C ⟨k, k, out⟩ =
          ⟨k + 1, k + 1, out ++ [nthMsg C k]⟩ := by
        unfold combineStep
        rw [if_pos (messageEq_refl (nthMsg C k)), merge_messages_self]
      rw [hstep, ih (k + 1) (out ++ [nthMsg C k]) (by omega)]
      have hnth : nthMsg C k = C[k] := List.getD_eq_getElem C dfltMsg hk
      rw [List.drop_eq_getElem_cons hk, hnth]
      simp
    · rw [if_neg (by simp [hk])]
      have hdrop : C.drop k = [] := List.drop_eq_nil_of_le (by omega)
      simp [hdrop]

/-- No two adjacent messages of the list are equivalent yet distinct. -/
def noAdjEquivDistinct : List Message → Bool
  | a :: b :: rest =>
    (!(Message.eq a b) || decide (a = b)) && noAdjEquivDistinct (b :: rest)
  | _ => true

/-- C8: merging a chat with itself yields a sequence of the same length in
which every message occurs exactly as often as in the original (each message
of `C` appears exactly once, i.e. the result is `C` itself), for any chat
with no two equivalent-but-distinct adjacent messages. -/
theorem combine_chats_self (C : List Message)
    (h : noAdjEquivDistinct C = true) :
    ∃ res, combine_chats C C (C.length + 1) = some res ∧
      res.length = C.length ∧ ∀ m : Message, res.count m = C.count m := by
  refine ⟨C, ?_, rfl, fun m => rfl⟩
  have hloop := combineLoop_self C (C.length + 1) 0 [] (by omega)
  simpa [combine_chats] using hloop

theorem alookup_map_succ (d : List (String × Nat)) (s : String) :
    alookup (d.map fun p => (p.1, p.2 + 1)) s = (alookup d s).map (· + 1) := by
  induction d with
  | nil => rfl
  | cons p rest ih =>
    obtain ⟨k, v⟩ := p
    by_cases h : k = s <;> simp [alookup, h, ih]

theorem alookup_bump_self (d : List (String × Nat)) (s : String) :
    alookup (bump d s) s = some ((alookup d s).getD 0 + 1) := by
  induction d with
  | nil => simp [bump, alookup]
  | cons p rest ih =>
    obtain ⟨k, v⟩ := p
    by_cases h : k = s <;> simp [bump, alookup, h, ih]

theorem alookup_bump_other (d : List (String × Nat)) (k s : String)
    (h : k ≠ s) : alookup (bump d k) s = alookup d s := by
  induction d with
  | nil => simp [bump, alookup, h]
  | cons p rest ih =>
    obtain ⟨k', v⟩ := p
    by_cases h' : k' = k
    · subst h'
      simp [bump, alookup, h]
    · by_cases h'' : k' = s <;> simp [bump, alookup, h', h'', ih, Ne.symm h]

/-- Full characterization of the string-stream duplicate scan, generalised
over the carried seen-set and counter (which must be consistent: every
counted key has been seen). -/
theorem stringDupScan_lookup (s : String) :
    ∀ (cs : List String) (seen : List String) (d : List (String × Nat)),
      (∀ x, alookup d x ≠ none → x ∈ seen) →
      alookup (stringDupScan cs seen d) s =
        if 15 < s.length then
          match alookup d s with
          | some k => some (k + cs.count s + 1)
          | none =>
            if s ∈ seen then
              (if 1 ≤ cs.count s then some (cs.count s + 1) else none)
            else
              (if 2 ≤ cs.count s then some (cs.count s) else none)
        else (alookup d s).map (· + 1) := by
  intro cs
  induction cs with
  | nil =>
    intro seen d _
    unfold stringDupScan
    rw [alookup_map_succ]
    by_cases hl : 15 < s.length
    · rw [if_pos hl]
      cases hd : alookup d s with
      | some k => simp
      | none =>
        by_cases hs : s ∈ seen <;> simp [hs]
    · rw [if_neg hl]
  | cons c rest ih =>
    intro seen d hw
    unfold stringDupScan
    by_cases hcl : c.length > 15
    · rw [if_pos hcl]
      by_cases hcs : c ∈ seen
      · rw [if_pos hcs, if_pos hcs]
        have hw' : ∀ x, alookup (bump d c) x ≠ none → x ∈ seen := by
          intro x hx
          by_cases hxc : x = c
          · exact hxc ▸ hcs
          · rw [alookup_bump_other d c x (fun e => hxc e.symm)] at hx
            exact hw x hx
        rw [ih seen (bump d c) hw']
        by_cases hceq : c = s
        · subst hceq
          rw [List.count_cons_self]
          by_cases hl : 15 < c.length
          · rw [if_pos hl, if_pos hl, alookup_bump_self]
            cases hd : alookup d c with
            | some k =>
              simp only [Option.getD_some]
              congr 1
              omega
            | none =>
              simp only [Option.getD_none, if_pos hcs]
              have h1 : 1 ≤ rest.count c + 1 := by omega
              rw [if_pos h1]
              congr 1
              omega
          · omega
        · rw [alookup_bump_other d c s hceq, List.count_cons_of_ne (by
            exact fun e => hceq e.symm)]
      · rw [if_neg hcs, if_neg hcs]
        have hw' : ∀ x, alookup d x ≠ none → x ∈ c :: seen := by
          intro x hx
          exact List.mem_cons_of_mem c (hw x hx)
        rw [ih (c :: seen) d hw']
        by_cases hceq : c = s
        · subst hceq
          have hd : alookup d c = none := by
            by_contra hx
            exact hcs (hw c hx)
          rw [List.count_cons_self, hd]
          by_cases hl : 15 < c.length
          · rw [if_pos hl, if_pos hl]
            rw [if_pos (List.mem_cons_self c seen), if_neg hcs]
            by_cases h1 : 1 ≤ rest.count c
            · rw [if_pos h1, if_pos (by omega)]
            · rw [if_neg h1, if_neg (by omega)]
          · omega
        · rw [List.count_cons_of_ne (fun e => hceq e.symm)]
          simp only [List.mem_cons,
            eq_false (fun e => hceq e.symm : ¬s = c), false_or]
    · rw [if_neg hcl]
      rw [ih seen d hw]
      by_cases hl : 15 < s.length
      · have hceq : c ≠ s := by
          intro e
          rw [e] at hcl
          omega
        rw [List.count_cons_of_ne (fun e => hceq e.symm)]
      · rw [if_neg hl, if_neg hl]

/-- The message-level pass is the string-level pass run on the two extracted
streams. -/
theorem dupScan_eq_stringDupScan :
    ∀ (msgs : List Message) (st sm : List String)
      (dt dm : List (String × Nat)),
      dupScan msgs st sm dt dm =
        (stringDupScan (textBodies msgs) st dt,
          stringDupScan (mediaCaptions msgs) sm dm) := by
  intro msgs
  induction msgs with
  | nil =>
    intro st sm dt dm
    rfl
  | cons m rest ih =>
    intro st sm dt dm
    cases m with
    | text t snd c =>
      have hb : textBodies (Message.text t snd c :: rest) = c :: textBodies rest := by
        simp [textBodies]
      have hc : mediaCaptions (Message.text t snd c :: rest) = mediaCaptions rest := by
        simp [mediaCaptions]
      rw [hb, hc]
      simp only [dupScan, stringDupScan]
      by_cases hcl : c.length > 15
      · rw [if_pos hcl, if_pos hcl, ih]
      · rw [if_neg hcl, if_neg hcl, ih]
    | media t snd md =>
      obtain ⟨mt, p, cap⟩ := md
      have hb : textBodies (Message.media t snd ⟨mt, p, cap⟩ :: rest) =
          textBodies rest := by
        simp [textBodies]
      cases cap with
      | some c =>
        have hc : mediaCaptions (Message.media t snd ⟨mt, p, some c⟩ :: rest) =
            c :: mediaCaptions rest := by
          simp [mediaCaptions]
        rw [hb, hc]
        simp only [dupScan, stringDupScan]
        by_cases hcl : c.length > 15
        · rw [if_pos hcl, if_pos hcl, ih]
        · rw [if_neg hcl, if_neg hcl, ih]
      | none =>
        have hc : mediaCaptions (Message.media t snd ⟨mt, p, none⟩ :: rest) =
            mediaCaptions rest := by
          simp [mediaCaptions]
        rw [hb, hc]
        simp only [dupScan]
        rw [ih]
    | system t snd c =>
      have hb : textBodies (Message.system t snd c :: rest) = textBodies rest := by
        simp [textBodies]
      have hc : mediaCaptions (Message.system t snd c :: rest) =
          mediaCaptions rest := by
        simp [mediaCaptions]
      rw [hb, hc]
      simp only [dupScan]
      rw [ih]

/-- The example chat of the spec's duplicate-detection test case. -/
def dupExample : List Message :=
  [.text 0 none "hello there how are you", .text 0 none "ok",
    .text 0 none "hello there how are you"]

/-- C7: `check_for_duplicates` reports, for every Text body and every Media
caption longer than 15 characters occurring at least twice, the TOTAL number
of occurrences; shorter or unrepeated strings are absent; and on the spec's
literal example the text counter is exactly
`[("hello there how are you", 2)]` with `"ok"` untracked. -/
theorem check_for_duplicates_spec :
    (∀ (msgs : List Message) (s : String),
      alookup (check_for_duplicates msgs).1 s =
        if 15 < s.length ∧ 2 ≤ countTextOcc s msgs then
          some (countTextOcc s msgs)
        else none) ∧
    (∀ (msgs : List Message) (s : String),
      alookup (check_for_duplicates msgs).2 s =
        if 15 < s.length ∧ 2 ≤ countCaptionOcc s msgs then
          some (countCaptionOcc s msgs)
        else none) ∧
    (check_for_duplicates dupExample).1 = [("hello there how are you", 2)] ∧
    alookup (check_for_duplicates dupExample).1 "ok" = none := by
  have key : ∀ (cs : List String) (s : String),
      alookup (stringDupScan cs [] []) s =
        if 15 < s.length ∧ 2 ≤ cs.count s then some (cs.count s) else none := by
    intro cs s
    rw [stringDupScan_lookup s cs [] [] (by intro x hx; exact absurd rfl hx)]
    by_cases hl : 15 < s.length
    · rw [if_pos hl]
      show (if s ∈ ([] : List String) then _ else _) = _
      rw [if_neg (List.not_mem_nil s)]
      by_cases h2 : 2 ≤ cs.count s
      · rw [if_pos h2, if_pos ⟨hl, h2⟩]
      · rw [if_neg h2, if_neg (fun hh => h2 hh.2)]
    · rw [if_neg hl, if_neg (fun hh => hl hh.1)]
      rfl
  refine ⟨?_, ?_, by rfl, by rfl⟩
  · intro msgs s
    unfold check_for_duplicates
    rw [dupScan_eq_stringDupScan]
    exact key (textBodies msgs) s
  · intro msgs s
    unfold check_for_duplicates
    rw [dupScan_eq_stringDupScan]
    exact key (mediaCaptions msgs) s

/-- Witness for C8 on a concrete two-message chat. -/
theorem combine_chats_self_witness :
    noAdjEquivDistinct
        [Message.text 0 (some "x") "hi", Message.text 0 (some "y") "yo"] = true ∧
      ∃ res, combine_chats
          [Message.text 0 (some "x") "hi", Message.text 0 (some "y") "yo"]
          [Message.text 0 (some "x") "hi", Message.text 0 (some "y") "yo"]
          ([Message.text 0 (some "x") "hi", Message.text 0 (some "y") "yo"].length + 1) =
          some res ∧
        res.length =
          [Message.text 0 (some "x") "hi", Message.text 0 (some "y") "yo"].length ∧
        ∀ m : Message, res.count m =
          [Message.text 0 (some "x") "hi", Message.text 0 (some "y") "yo"].count m :=
  ⟨by decide,
    combine_chats_self [Message.text 0 (some "x") "hi", Message.text 0 (some "y") "yo"]
      (by decide)⟩

end WhatsApp
